import Mathlib

/-!
Verification of `backend/scripts/remove_unused_swagger_endpoints.py`.

The script loads a Swagger YAML document, deletes a hard-coded list of
endpoint keys from its `paths` mapping, appends a dated note to
`info.description`, rewrites the file, and emits a Markdown report; a
timestamped backup is taken first and restored on any exception.

The document tree is embedded as an association list of string keys to
YAML values (`YVal`), with Python's dynamic-typing failure modes
(`TypeError`, `KeyError`, `AttributeError`) made explicit through
`Except PyErr`.
-/

namespace SwaggerCleanup

/-- A parsed YAML value, as produced by `yaml.safe_load`: `None`, strings,
integers, mappings (Python `dict`, insertion-ordered, unique keys) and
sequences (Python `list`). -/
inductive YVal where
  | null
  | str (s : String)
  | int (n : Int)
  | map (entries : List (String × YVal))
  | list (items : List YVal)

/-- A mapping's entry list: the in-memory form of a Python `dict` with
string keys. -/
abbrev Entries := List (String × YVal)

/-- First-match association-list lookup: `dict[k]` when it succeeds. -/
def lookupKey (es : Entries) (k : String) : Option YVal :=
  match es with
  | [] => none
  | (k', v) :: rest => if k' = k then some v else lookupKey rest k

/-- Python's `k in d` membership test on a dict. -/
def hasKey (es : Entries) (k : String) : Bool :=
  (lookupKey es k).isSome

/-- Python's `del d[k]`: removes the entry with key `k`. -/
def delKey (es : Entries) (k : String) : Entries :=
  es.filter (fun p => decide (p.1 ≠ k))

/-- Python's `d[k] = v`: overwrites in place when the key is present
(its position is kept), otherwise appends at the end. -/
def setKey (es : Entries) (k : String) (v : YVal) : Entries :=
  match es with
  | [] => [(k, v)]
  | (k', w) :: rest => if k' = k then (k, v) :: rest else (k', w) :: setKey rest k v

/-- The Python exceptions the script's in-memory steps and I/O can raise. -/
inductive PyErr where
  | typeError
  | keyError
  | attributeError
  | valueError
  | ioError
deriving DecidableEq

/-- Substring test, as in Python's `sub in s` for strings
(the empty string is a substring of everything). -/
def strContains (s sub : String) : Bool :=
  if sub = "" then true else decide (2 ≤ (s.splitOn sub).length)

/-- Python's `k in v` for an arbitrary value `v`: key membership for a
dict, substring test for a str, element equality for a list, and a
`TypeError` for non-container values such as `None` or an int. -/
def pyIn (k : String) : YVal → Except PyErr Bool
  | .map es => .ok (hasKey es k)
  | .str s => .ok (strContains s k)
  | .list vs => .ok (vs.any (fun v => match v with | .str s => decide (s = k) | _ => false))
  | .null => .error .typeError
  | .int _ => .error .typeError

/-- Python's `len(v)`: defined for dicts, strings and lists; `TypeError`
otherwise. -/
def pyLen : YVal → Except PyErr Nat
  | .map es => .ok es.length
  | .str s => .ok s.length
  | .list vs => .ok vs.length
  | .null => .error .typeError
  | .int _ => .error .typeError

/-- Python's `del v[k]` with a string index: only a dict supports it
(`KeyError` when the key is absent); everything else raises `TypeError`. -/
def pyDelItem (v : YVal) (k : String) : Except PyErr YVal :=
  match v with
  | .map es => if hasKey es k then .ok (.map (delKey es k)) else .error .keyError
  | _ => .error .typeError

/-- Python's `v.get(k, dflt)`: only a dict has the `get` method;
everything else raises `AttributeError`. -/
def pyGet (v : YVal) (k : String) (dflt : YVal) : Except PyErr YVal :=
  match v with
  | .map es => .ok ((lookupKey es k).getD dflt)
  | _ => .error .attributeError

/-- Python's `v[k] = x` with a string index: only a dict supports item
assignment at a string key; everything else raises `TypeError`. -/
def pySetItem (v : YVal) (k : String) (x : YVal) : Except PyErr YVal :=
  match v with
  | .map es => .ok (.map (setKey es k x))
  | _ => .error .typeError

/-- `d[k]` on the top-level document dict: `KeyError` when absent. -/
def getItem (es : Entries) (k : String) : Except PyErr YVal :=
  match lookupKey es k with
  | some v => .ok v
  | none => .error .keyError

mutual
/-- Python's `repr` rendering of a value (used by `str` on containers). -/
def pyRepr : YVal → String
  | .null => "None"
  | .str s => "\x27" ++ s ++ "\x27"
  | .int n => toString n
  | .map es => "\x7b" ++ String.intercalate ", " (pyReprEntries es) ++ "\x7d"
  | .list vs => "[" ++ String.intercalate ", " (pyReprItems vs) ++ "]"

/-- `repr` of a dict's entries. -/
def pyReprEntries : List (String × YVal) → List String
  | [] => []
  | (k, v) :: rest => ("\x27" ++ k ++ "\x27: " ++ pyRepr v) :: pyReprEntries rest

/-- `repr` of a list's items. -/
def pyReprItems : List YVal → List String
  | [] => []
  | v :: rest => pyRepr v :: pyReprItems rest
end

/-- Python's `str(v)`, as applied by the f-string interpolation: the
string itself for a str, `repr` for every other value. -/
def pyStr : YVal → String
  | .str s => s
  | v => pyRepr v

/-- The hard-coded `unused_endpoints` list from the script, in order. -/
def unused_endpoints : List String :=
  [ "/journal-entries/auto-generate/purchase",
    "/journal-entries/auto-generate/sale",
    "/journal-entries/{id}/post",
    "/journal-entries/{id}/reverse",
    "/journal-entries/summary",
    "/accounts/{account_id}/journal-entries",
    "/api/admin/check-cashbank-gl-links",
    "/api/admin/fix-cashbank-gl-links",
    "/api/monitoring/balance-health",
    "/api/monitoring/balance-sync",
    "/api/monitoring/discrepancies",
    "/api/monitoring/fix-discrepancies",
    "/api/monitoring/sync-status",
    "/api/payments/debug/recent",
    "/api/payments/analytics",
    "/api/payments/export/excel",
    "/api/payments/report/pdf",
    "/api/payments/{id}/pdf",
    "/api/reports/enhanced/financial-metrics",
    "/api/reports/enhanced/profit-loss",
    "/api/reports/enhanced/profit-loss-comparison",
    "/api/v1/admin/security/alerts",
    "/api/v1/admin/security/alerts/{id}/acknowledge",
    "/api/v1/admin/security/cleanup",
    "/api/v1/admin/security/config",
    "/api/v1/admin/security/incidents",
    "/api/v1/admin/security/incidents/{id}",
    "/api/v1/admin/security/incidents/{id}/resolve",
    "/api/v1/admin/security/ip-whitelist",
    "/api/v1/admin/security/metrics" ]

/-- The removal `for` loop: for each endpoint, `if endpoint in
swagger_data['paths']: del swagger_data['paths'][endpoint];
removed_count += 1`. The document is re-read at each access, as the
Python code does. -/
def removalLoop (d : Entries) (n : Nat) : List String → Except PyErr (Entries × Nat)
  | [] => .ok (d, n)
  | ep :: rest =>
    match getItem d "paths" with
    | .error e => .error e
    | .ok pv =>
      match pyIn ep pv with
      | .error e => .error e
      | .ok b =>
        if b then
          match pyDelItem pv ep with
          | .error e => .error e
          | .ok pv' => removalLoop (setKey d "paths" pv') (n + 1) rest
        else removalLoop d n rest

/-- The endpoint-removal block (script lines 79-92): guarded by
`if 'paths' in swagger_data`, computes `original_count = len(...)`, runs
the removal loop, then computes `new_count = len(...)`. Returns the
updated document and `removed_count` (0 when `paths` is absent). -/
def removeStep (doc : Entries) (L : List String) : Except PyErr (Entries × Nat) :=
  if hasKey doc "paths" then
    match getItem doc "paths" with
    | .error e => .error e
    | .ok pv =>
      match pyLen pv with
      | .error e => .error e
      | .ok _ =>
        match removalLoop doc 0 L with
        | .error e => .error e
        | .ok (d, n) =>
          match getItem d "paths" with
          | .error e => .error e
          | .ok pv2 =>
            match pyLen pv2 with
            | .error e => .error e
            | .ok _ => .ok (d, n)
  else .ok (doc, 0)

/-- The fixed note appended to `info.description`, with the run's date
spliced in by the f-string. -/
def noteText (date : String) : String :=
  "\n\nNOTE: Unused endpoints have been removed based on frontend usage analysis performed on " ++ date ++ "."

/-- The description-annotating block (script lines 95-99): create
`info` as an empty dict when absent, read `description` via `.get` with
default `''`, and assign the old description (through `str`) followed by
the dated note. -/
def annotateStep (doc : Entries) (date : String) : Except PyErr Entries :=
  let d1 := if hasKey doc "info" then doc else setKey doc "info" (.map [])
  match getItem d1 "info" with
  | .error e => .error e
  | .ok infoV =>
    match pyGet infoV "description" (.str "") with
    | .error e => .error e
    | .ok orig =>
      match pySetItem infoV "description" (.str (pyStr orig ++ noteText date)) with
      | .error e => .error e
      | .ok infoV2 => .ok (setKey d1 "info" infoV2)

/-- The in-memory part of the `try` block: removal followed by the
description note. Returns the mutated document and the removed count. -/
def processDoc (doc : Entries) (L : List String) (date : String) : Except PyErr (Entries × Nat) :=
  match removeStep doc L with
  | .error e => .error e
  | .ok (d1, removed) =>
    match annotateStep d1 date with
    | .error e => .error e
    | .ok d2 => .ok (d2, removed)

/-- The removal loop's effect on the `paths` mapping alone: delete each
listed endpoint that is present, in list order. -/
def applyRemovals (pv : Entries) : List String → Entries
  | [] => pv
  | ep :: rest => applyRemovals (if hasKey pv ep then delKey pv ep else pv) rest

/-- The removal loop's `removed_count` on the `paths` mapping alone. -/
def countRemovals (pv : Entries) : List String → Nat
  | [] => 0
  | ep :: rest =>
    if hasKey pv ep then countRemovals (delKey pv ep) rest + 1
    else countRemovals pv rest

/-- The on-disk state the script touches: the swagger source file's
content, this run's backup file (absent until the copy is made), and the
Markdown report file. -/
structure FS where
  swagger : String
  backup : Option String
  report : Option String

/-- Oracle for the steps whose outcome depends on the outside world:
the result of `yaml.safe_load` on the source text, the text produced by
`yaml.dump` (or a failure), the content left in the source file when the
dump/write fails midway (`open(.., 'w')` truncates first), and whether
and how the report write fails, with the content it leaves behind. -/
structure Outcomes where
  parsed : Except PyErr Entries
  dump : Entries → Except PyErr String
  brokenSwagger : String
  reportErr : Option PyErr
  brokenReport : Option String

/-- The `except` handler's restore: `if backup_file.exists():
shutil.copy2(backup_file, swagger_file)`. -/
def restoreGuard (fs : FS) : FS :=
  match fs.backup with
  | some b => { fs with swagger := b }
  | none => fs

/-- The Markdown text built by `generate_cleanup_report`: a function of
the targeted list's length, the removed count, the backup path and the
report timestamp only — the endpoint enumeration is a static template. -/
def generate_cleanup_report (L : List String) (removed_count : Nat) (backup_file ts : String) : String :=
  "# Swagger Cleanup Report\n" ++
  "\n" ++
  "## Summary\n" ++
  "- **Date**: " ++ ts ++ "\n" ++
  "- **Total endpoints targeted for removal**: " ++ toString L.length ++ "\n" ++
  "- **Successfully removed**: " ++ toString removed_count ++ "\n" ++
  "- **Backup location**: " ++ backup_file ++ "\n" ++
  "\n" ++
  "## Removed Endpoints\n" ++
  "\n" ++
  "### Journal Entry Operations\n" ++
  "- `/journal-entries/auto-generate/purchase` (POST)\n" ++
  "- `/journal-entries/auto-generate/sale` (POST)\n" ++
  "- `/journal-entries/{id}/post` (POST)\n" ++
  "- `/journal-entries/{id}/reverse` (POST)\n" ++
  "- `/journal-entries/summary` (GET)\n" ++
  "\n" ++
  "### Account Operations\n" ++
  "- `/accounts/{account_id}/journal-entries` (GET)\n" ++
  "\n" ++
  "### Admin Operations  \n" ++
  "- `/api/admin/check-cashbank-gl-links` (GET)\n" ++
  "- `/api/admin/fix-cashbank-gl-links` (POST)\n" ++
  "\n" ++
  "### Balance Monitoring\n" ++
  "- `/api/monitoring/balance-health` (GET)\n" ++
  "- `/api/monitoring/balance-sync` (GET)\n" ++
  "- `/api/monitoring/discrepancies` (GET)\n" ++
  "- `/api/monitoring/fix-discrepancies` (POST)\n" ++
  "- `/api/monitoring/sync-status` (GET)\n" ++
  "\n" ++
  "### Payment Analytics & Export\n" ++
  "- `/api/payments/debug/recent` (GET)\n" ++
  "- `/api/payments/analytics` (GET)\n" ++
  "- `/api/payments/export/excel` (GET)\n" ++
  "- `/api/payments/report/pdf` (GET)\n" ++
  "- `/api/payments/{id}/pdf` (GET)\n" ++
  "\n" ++
  "### Enhanced Reports\n" ++
  "- `/api/reports/enhanced/financial-metrics` (GET)\n" ++
  "- `/api/reports/enhanced/profit-loss` (GET)\n" ++
  "- `/api/reports/enhanced/profit-loss-comparison` (GET)\n" ++
  "\n" ++
  "### Security Dashboard\n" ++
  "- `/api/v1/admin/security/alerts` (GET)\n" ++
  "- `/api/v1/admin/security/alerts/{id}/acknowledge` (PUT)\n" ++
  "- `/api/v1/admin/security/cleanup` (POST)\n" ++
  "- `/api/v1/admin/security/config` (GET)\n" ++
  "- `/api/v1/admin/security/incidents` (GET)\n" ++
  "- `/api/v1/admin/security/incidents/{id}` (GET)\n" ++
  "- `/api/v1/admin/security/incidents/{id}/resolve` (PUT)\n" ++
  "- `/api/v1/admin/security/ip-whitelist` (GET, POST)\n" ++
  "- `/api/v1/admin/security/metrics` (GET)\n" ++
  "\n" ++
  "## Notes\n" ++
  "- All removed endpoints were identified as unused based on comprehensive frontend code analysis\n" ++
  "- Backend implementation remains intact - only Swagger documentation was cleaned\n" ++
  "- Some endpoints may be used by external integrations or admin tools not covered in this analysis\n" ++
  "- To restore original Swagger file, use the backup located at: `" ++ backup_file ++ "`\n" ++
  "\n" ++
  "## Next Steps\n" ++
  "1. ‚úÖ Swagger documentation cleaned\n" ++
  "2. ‚è≥ Test Swagger UI to ensure it loads correctly\n" ++
  "3. ‚è≥ Verify API documentation reflects only used endpoints\n" ++
  "4. üìã Consider implementing any useful endpoints that should be in frontend\n"

/-- The whole `remove_unused_endpoints` run, starting from the backup
copy: parse, remove, annotate, rewrite the source, write the report.
Any exception after the backup lands in the `except` handler, which
restores the source from the backup and re-raises (the error is the
second component). `date`, `ts` and `backup_name` stand for the three
`datetime.now()` readings (description date, report timestamp, backup
file name). -/
def remove_unused_endpoints (date ts backup_name : String) (o : Outcomes) (fs : FS) : FS × Except PyErr Nat :=
  let fs1 : FS := { fs with backup := some fs.swagger }
  match o.parsed with
  | .error e => (restoreGuard fs1, .error e)
  | .ok swagger_data =>
    match processDoc swagger_data unused_endpoints date with
    | .error e => (restoreGuard fs1, .error e)
    | .ok (doc2, removed) =>
      match o.dump doc2 with
      | .error e => (restoreGuard { fs1 with swagger := o.brokenSwagger }, .error e)
      | .ok out =>
        let fs2 : FS := { fs1 with swagger := out }
        match o.reportErr with
        | some e =>
          (restoreGuard { fs2 with report := match o.brokenReport with | some r => some r | none => fs2.report }, .error e)
        | none => ({ fs2 with report := some (generate_cleanup_report unused_endpoints removed backup_name ts) }, .ok removed)

/-! ### Association-list lemmas -/

theorem lookupKey_setKey_self (es : Entries) (k : String) (v : YVal) :
    lookupKey (setKey es k v) k = some v := by
  induction es with
  | nil => simp [setKey, lookupKey]
  | cons p rest ih =>
    obtain ⟨k', w⟩ := p
    by_cases h : k' = k
    · simp [setKey, h, lookupKey]
    · simp [setKey, h, lookupKey, ih]

theorem lookupKey_setKey_other (es : Entries) (k k2 : String) (v : YVal) (hne : k2 ≠ k) :
    lookupKey (setKey es k v) k2 = lookupKey es k2 := by
  induction es with
  | nil => simp [setKey, lookupKey, Ne.symm hne]
  | cons p rest ih =>
    obtain ⟨k', w⟩ := p
    by_cases h : k' = k
    · subst h
      simp [setKey, lookupKey, Ne.symm hne]
    · by_cases h2 : k' = k2 <;> simp [setKey, h, lookupKey, h2, hne, ih]

theorem setKey_eq_self (es : Entries) (k : String) (v : YVal)
    (h : lookupKey es k = some v) : setKey es k v = es := by
  induction es with
  | nil => simp [lookupKey] at h
  | cons p rest ih =>
    obtain ⟨k', w⟩ := p
    by_cases hk : k' = k
    · subst hk
      simp [lookupKey] at h
      simp [setKey, h]
    · simp [lookupKey, hk] at h
      simp [setKey, hk, ih h]

theorem setKey_setKey (es : Entries) (k : String) (v w : YVal) :
    setKey (setKey es k v) k w = setKey es k w := by
  induction es with
  | nil => simp [setKey]
  | cons p rest ih =>
    obtain ⟨k', u⟩ := p
    by_cases h : k' = k
    · simp [setKey, h]
    · simp [setKey, h, ih]

theorem lookupKey_eq_none_iff (es : Entries) (k : String) :
    lookupKey es k = none ↔ ∀ p ∈ es, p.1 ≠ k := by
  induction es with
  | nil => simp [lookupKey]
  | cons p rest ih =>
    obtain ⟨k', w⟩ := p
    by_cases h : k' = k <;> simp [lookupKey, h, ih]

theorem hasKey_iff_mem (es : Entries) (k : String) :
    hasKey es k = true ↔ k ∈ es.map Prod.fst := by
  induction es with
  | nil => simp [hasKey, lookupKey]
  | cons p rest ih =>
    obtain ⟨k', w⟩ := p
    by_cases h : k' = k
    · simp [hasKey, lookupKey, h]
    · have hstep : hasKey ((k', w) :: rest) k = hasKey rest k := by
        simp [hasKey, lookupKey, h]
      rw [hstep, ih]
      simp [List.mem_cons, Ne.symm h]

theorem lookupKey_filterKeys (es : Entries) (q : String → Bool) (k : String) (hq : q k = true) :
    lookupKey (es.filter (fun p => q p.1)) k = lookupKey es k := by
  induction es with
  | nil => simp
  | cons p rest ih =>
    obtain ⟨k', w⟩ := p
    by_cases h : k' = k
    · subst h
      simp [List.filter_cons, hq, lookupKey]
    · by_cases hq' : q k' <;> simp [List.filter_cons, hq', lookupKey, h, ih]

theorem lookupKey_filterKeys_none (es : Entries) (q : String → Bool) (k : String) (hq : q k = false) :
    lookupKey (es.filter (fun p => q p.1)) k = none := by
  induction es with
  | nil => simp [lookupKey]
  | cons p rest ih =>
    obtain ⟨k', w⟩ := p
    by_cases h : k' = k
    · subst h
      simp [List.filter_cons, hq, ih]
    · by_cases hq' : q k' <;> simp [List.filter_cons, hq', lookupKey, h, ih]

theorem keysOfFilter (es : Entries) (q : String → Bool) :
    (es.filter (fun p => q p.1)).map Prod.fst = (es.map Prod.fst).filter q := by
  induction es with
  | nil => simp
  | cons p rest ih => by_cases h : q p.1 <;> simp [List.filter_cons, h, ih]

/-! ### Removal-loop characterization -/

theorem lookupKey_delKey_other (es : Entries) (k k2 : String) (hne : k2 ≠ k) :
    lookupKey (delKey es k) k2 = lookupKey es k2 := by
  have := lookupKey_filterKeys es (fun x => decide (x ≠ k)) k2 (by simp [hne])
  simpa [delKey] using this

theorem lookupKey_eq_none_of_hasKey_false (es : Entries) (k : String)
    (h : hasKey es k = false) : lookupKey es k = none := by
  cases hl : lookupKey es k with
  | none => rfl
  | some v => simp [hasKey, hl] at h

theorem filter_ne_eq_self (es : Entries) (k : String) (h : hasKey es k = false) :
    es.filter (fun p => decide (p.1 ≠ k)) = es := by
  apply List.filter_eq_self.mpr
  intro a ha
  have hn := (lookupKey_eq_none_iff es k).mp (lookupKey_eq_none_of_hasKey_false es k h)
  simp [hn a ha]

theorem applyRemovals_eq_filter (L : List String) : ∀ pv : Entries,
    applyRemovals pv L = pv.filter (fun p => decide (p.1 ∉ L)) := by
  induction L with
  | nil =>
    intro pv
    simp [applyRemovals]
  | cons ep rest ih =>
    intro pv
    have hstep : (if hasKey pv ep then delKey pv ep else pv) =
        pv.filter (fun p => decide (p.1 ≠ ep)) := by
      by_cases h : hasKey pv ep
      · simp [h, delKey]
      · rw [if_neg (by simp [h]), filter_ne_eq_self pv ep (by simpa using h)]
    rw [applyRemovals, hstep, ih, List.filter_filter]
    refine List.filter_congr ?_
    intro a _
    simp [List.mem_cons, not_or, Decidable.not_not, Bool.and_comm]

theorem applyRemovals_no_hits (L : List String) : ∀ pv : Entries,
    (∀ ep ∈ L, lookupKey pv ep = none) →
    applyRemovals pv L = pv ∧ countRemovals pv L = 0 := by
  induction L with
  | nil =>
    intro pv _
    exact ⟨rfl, rfl⟩
  | cons ep rest ih =>
    intro pv h
    have h0 : hasKey pv ep = false := by
      simp [hasKey, h ep (List.mem_cons_self ep rest)]
    have hrest : ∀ e ∈ rest, lookupKey pv e = none :=
      fun e he => h e (List.mem_cons_of_mem ep he)
    refine ⟨?_, ?_⟩
    · rw [applyRemovals, if_neg (by simp [h0])]
      exact (ih pv hrest).1
    · rw [countRemovals, if_neg (by simp [h0])]
      exact (ih pv hrest).2

theorem countRemovals_eq_filter_length (L : List String) : ∀ pv : Entries, L.Nodup →
    countRemovals pv L = (L.filter (fun ep => hasKey pv ep)).length := by
  induction L with
  | nil =>
    intro pv _
    simp [countRemovals]
  | cons ep rest ih =>
    intro pv hnd
    have hmem : ep ∉ rest := (List.nodup_cons.mp hnd).1
    have hrest : rest.Nodup := (List.nodup_cons.mp hnd).2
    by_cases h : hasKey pv ep
    · rw [countRemovals, if_pos h, ih _ hrest]
      have hsame : rest.filter (fun e => hasKey (delKey pv ep) e) =
          rest.filter (fun e => hasKey pv e) := by
        refine List.filter_congr ?_
        intro x hx
        have hxne : x ≠ ep := fun hc => hmem (hc ▸ hx)
        simp [hasKey, lookupKey_delKey_other pv ep x hxne]
      rw [hsame, List.filter_cons, if_pos (by simp [h])]
      simp
    · rw [countRemovals, if_neg h, ih _ hrest]
      rw [List.filter_cons, if_neg (by simp [h])]

theorem removalLoop_char (L : List String) : ∀ (d pv : Entries) (n : Nat),
    lookupKey d "paths" = some (.map pv) →
    removalLoop d n L =
      .ok (setKey d "paths" (.map (applyRemovals pv L)), n + countRemovals pv L) := by
  induction L with
  | nil =>
    intro d pv n hp
    simp [removalLoop, applyRemovals, countRemovals, setKey_eq_self d "paths" _ hp]
  | cons ep rest ih =>
    intro d pv n hp
    have hg : getItem d "paths" = .ok (.map pv) := by simp [getItem, hp]
    by_cases h : hasKey pv ep
    · rw [removalLoop]
      simp only [hg, pyIn, h, if_pos, pyDelItem, if_pos h]
      rw [ih (setKey d "paths" (.map (delKey pv ep))) (delKey pv ep) (n + 1)
        (lookupKey_setKey_self d "paths" (.map (delKey pv ep)))]
      rw [setKey_setKey]
      rw [applyRemovals, if_pos h, countRemovals, if_pos h]
      congr 2
      omega
    · rw [removalLoop]
      simp only [hg, pyIn, h, if_neg, Bool.false_eq_true, if_false]
      rw [ih d pv n hp]
      rw [applyRemovals, if_neg (by simp [h]), countRemovals, if_neg (by simp [h])]

theorem removeStep_char (doc pv : Entries) (L : List String)
    (hp : lookupKey doc "paths" = some (.map pv)) :
    removeStep doc L =
      .ok (setKey doc "paths" (.map (applyRemovals pv L)), countRemovals pv L) := by
  have hk : hasKey doc "paths" = true := by simp [hasKey, hp]
  have hg : getItem doc "paths" = .ok (.map pv) := by simp [getItem, hp]
  rw [removeStep, if_pos hk]
  simp only [hg, pyLen]
  rw [removalLoop_char L doc pv 0 hp]
  simp only [getItem, lookupKey_setKey_self, pyLen, Nat.zero_add]

theorem removeStep_skip (doc : Entries) (L : List String)
    (h : lookupKey doc "paths" = none) :
    removeStep doc L = .ok (doc, 0) := by
  rw [removeStep, if_neg (by simp [hasKey, h])]

/-! ### Annotator characterization and counting -/

theorem annotateStep_absent (doc : Entries) (date : String)
    (h : lookupKey doc "info" = none) :
    annotateStep doc date =
      .ok (setKey doc "info" (.map [("description", .str ("" ++ noteText date))])) := by
  have hk : hasKey doc "info" = false := by simp [hasKey, h]
  rw [annotateStep]
  simp only [hk, Bool.false_eq_true, if_false, getItem, lookupKey_setKey_self, pyGet,
    lookupKey, Option.getD, pyStr, pySetItem, setKey, setKey_setKey]

theorem annotateStep_present (doc im : Entries) (date : String)
    (h : lookupKey doc "info" = some (.map im)) :
    annotateStep doc date =
      .ok (setKey doc "info" (.map (setKey im "description"
        (.str (pyStr ((lookupKey im "description").getD (.str "")) ++ noteText date))))) := by
  have hk : hasKey doc "info" = true := by simp [hasKey, h]
  rw [annotateStep]
  simp only [hk, if_true, getItem, h, pyGet, pySetItem]

theorem unused_endpoints_nodup : unused_endpoints.Nodup := by decide

theorem countRemovals_card (pv : Entries) (L : List String) (hnd : L.Nodup) :
    countRemovals pv L = ((pv.map Prod.fst).toFinset ∩ L.toFinset).card := by
  rw [countRemovals_eq_filter_length L pv hnd]
  have h1 : (L.filter (fun ep => hasKey pv ep)).toFinset.card =
      (L.filter (fun ep => hasKey pv ep)).length :=
    List.toFinset_card_of_nodup (hnd.filter _)
  rw [← h1, List.toFinset_filter]
  have h2 : L.toFinset.filter (fun ep => hasKey pv ep) =
      L.toFinset ∩ (pv.map Prod.fst).toFinset := by
    ext x
    simp [hasKey_iff_mem, List.mem_toFinset]
  rw [h2, Finset.inter_comm]

/-! ### Claims about the removal step -/

/-- Claim C1: for every input document whose top-level mapping contains a
`paths` mapping, and the fixed removal list, the removal step succeeds and
the key set of the output `paths` mapping equals the input's key set minus
the removal list, membership being exact string key equality. -/
theorem claim1_removed_keys (doc pv : Entries)
    (hp : lookupKey doc "paths" = some (.map pv)) :
    ∃ d n, removeStep doc unused_endpoints = .ok (d, n) ∧
      ∃ pv', lookupKey d "paths" = some (.map pv') ∧
        (pv'.map Prod.fst).toFinset =
          (pv.map Prod.fst).toFinset \ unused_endpoints.toFinset := by
  refine ⟨_, _, removeStep_char doc pv unused_endpoints hp,
    applyRemovals pv unused_endpoints, lookupKey_setKey_self doc "paths" _, ?_⟩
  rw [applyRemovals_eq_filter]
  rw [show (pv.filter (fun p => decide (p.1 ∉ unused_endpoints))).map Prod.fst =
      (pv.map Prod.fst).filter (fun x => decide (x ∉ unused_endpoints)) from
    keysOfFilter pv (fun x => decide (x ∉ unused_endpoints))]
  ext x
  simp [List.mem_toFinset, List.mem_filter, Finset.mem_sdiff]

/-- Concrete instance of C1: a two-path document with one targeted path. -/
theorem claim1_removed_keys_witness :
    ∃ d n,
      removeStep
        [("paths", YVal.map [("/a", YVal.null), ("/journal-entries/summary", YVal.null)])]
        unused_endpoints = .ok (d, n) ∧
      ∃ pv', lookupKey d "paths" = some (.map pv') ∧
        (pv'.map Prod.fst).toFinset =
          ((([("/a", YVal.null), ("/journal-entries/summary", YVal.null)] : Entries).map
            Prod.fst).toFinset \ unused_endpoints.toFinset) :=
  claim1_removed_keys _ _ rfl

/-- Claim C3: for every input document containing a `paths` mapping, the
reported removed count equals the cardinality of the intersection of the
`paths` key set with the fixed removal list. -/
theorem claim3_removed_count (doc pv : Entries)
    (hp : lookupKey doc "paths" = some (.map pv)) :
    ∃ d, removeStep doc unused_endpoints =
      .ok (d, ((pv.map Prod.fst).toFinset ∩ unused_endpoints.toFinset).card) := by
  refine ⟨setKey doc "paths" (.map (applyRemovals pv unused_endpoints)), ?_⟩
  rw [removeStep_char doc pv unused_endpoints hp,
    countRemovals_card pv unused_endpoints unused_endpoints_nodup]

/-- Concrete instance of C3. -/
theorem claim3_removed_count_witness :
    ∃ d, removeStep
        [("paths", YVal.map [("/a", YVal.null), ("/journal-entries/summary", YVal.null)])]
        unused_endpoints =
      .ok (d, ((([("/a", YVal.null), ("/journal-entries/summary", YVal.null)] : Entries).map
        Prod.fst).toFinset ∩ unused_endpoints.toFinset).card) :=
  claim3_removed_count _ _ rfl

/-- Claim C7: a document with no `paths` key skips removal entirely with
a removed count of zero and no error; and removal-list entries absent
from `paths` are non-fatal no-ops (a document whose `paths` mapping
contains none of them passes through unchanged, count zero). -/
theorem claim7_missing_paths (doc : Entries) :
    (lookupKey doc "paths" = none → removeStep doc unused_endpoints = .ok (doc, 0)) ∧
    (∀ pv, lookupKey doc "paths" = some (.map pv) →
      (∀ ep ∈ unused_endpoints, lookupKey pv ep = none) →
      removeStep doc unused_endpoints = .ok (doc, 0)) := by
  refine ⟨fun h => removeStep_skip doc unused_endpoints h, ?_⟩
  intro pv hp habs
  obtain ⟨h1, h2⟩ := applyRemovals_no_hits unused_endpoints pv habs
  rw [removeStep_char doc pv unused_endpoints hp, h1, h2, setKey_eq_self doc "paths" _ hp]

/-- Concrete instances of C7: a document without `paths`, and one whose
`paths` holds only an untargeted path. -/
theorem claim7_missing_paths_witness :
    removeStep [("openapi", YVal.str "3.0.0")] unused_endpoints =
      .ok ([("openapi", YVal.str "3.0.0")], 0) ∧
    removeStep [("paths", YVal.map [("/a", YVal.null)])] unused_endpoints =
      .ok ([("paths", YVal.map [("/a", YVal.null)])], 0) :=
  ⟨(claim7_missing_paths _).1 rfl,
   (claim7_missing_paths _).2 [("/a", YVal.null)] rfl
     (by intro ep hep; fin_cases hep <;> rfl)⟩

/-- Claim C8: the removal step is idempotent — applying it to its own
output removes nothing (count zero) and leaves the document unchanged,
so in particular the `paths` key set is unchanged. -/
theorem claim8_idempotent (doc pv : Entries)
    (hp : lookupKey doc "paths" = some (.map pv)) :
    ∃ d n, removeStep doc unused_endpoints = .ok (d, n) ∧
      removeStep d unused_endpoints = .ok (d, 0) := by
  refine ⟨_, _, removeStep_char doc pv unused_endpoints hp, ?_⟩
  have hp1 : lookupKey (setKey doc "paths" (.map (applyRemovals pv unused_endpoints)))
      "paths" = some (.map (applyRemovals pv unused_endpoints)) :=
    lookupKey_setKey_self doc "paths" _
  have habs : ∀ ep ∈ unused_endpoints,
      lookupKey (applyRemovals pv unused_endpoints) ep = none := by
    intro ep hep
    rw [applyRemovals_eq_filter]
    exact lookupKey_filterKeys_none pv (fun x => decide (x ∉ unused_endpoints)) ep
      (by simp [hep])
  obtain ⟨h1, h2⟩ := applyRemovals_no_hits unused_endpoints _ habs
  rw [removeStep_char _ _ unused_endpoints hp1, h1, h2, setKey_eq_self _ "paths" _ hp1]

/-- Concrete instance of C8. -/
theorem claim8_idempotent_witness :
    ∃ d n, removeStep
        [("paths", YVal.map [("/a", YVal.null), ("/journal-entries/summary", YVal.null)])]
        unused_endpoints = .ok (d, n) ∧
      removeStep d unused_endpoints = .ok (d, 0) :=
  claim8_idempotent _ _ rfl

/-! ### Claims about the annotator and the whole in-memory pipeline -/

/-- Claim C5: the output `info.description` is exactly the original
description string (empty when `info` or `description` was absent, both
being created then) followed by the fixed dated note; nothing of the
prior description is removed or rewritten. -/
theorem claim5_description_append (doc : Entries) (s date : String)
    (h : (lookupKey doc "info" = none ∧ s = "") ∨
         (∃ im, lookupKey doc "info" = some (.map im) ∧
           ((lookupKey im "description" = none ∧ s = "") ∨
            lookupKey im "description" = some (.str s)))) :
    ∃ d, annotateStep doc date = .ok d ∧
      ∃ im', lookupKey d "info" = some (.map im') ∧
        lookupKey im' "description" = some (.str (s ++ noteText date)) := by
  rcases h with ⟨habs, hs⟩ | ⟨im, him, hdesc⟩
  · subst hs
    refine ⟨_, annotateStep_absent doc date habs, _,
      lookupKey_setKey_self doc "info" _, ?_⟩
    simp [lookupKey]
  · rcases hdesc with ⟨hdn, hs⟩ | hds
    · subst hs
      refine ⟨_, annotateStep_present doc im date him, _,
        lookupKey_setKey_self doc "info" _, ?_⟩
      rw [hdn]
      simpa [pyStr] using
        lookupKey_setKey_self im "description" (.str ("" ++ noteText date))
    · refine ⟨_, annotateStep_present doc im date him, _,
        lookupKey_setKey_self doc "info" _, ?_⟩
      rw [hds]
      simpa [pyStr] using
        lookupKey_setKey_self im "description" (.str (s ++ noteText date))

/-- Concrete instance of C5: an existing description gets the note
appended. -/
theorem claim5_description_append_witness :
    ∃ d, annotateStep [("info", YVal.map [("description", YVal.str "Base")])]
        "2025-01-01" = .ok d ∧
      ∃ im', lookupKey d "info" = some (.map im') ∧
        lookupKey im' "description" =
          some (.str ("Base" ++ noteText "2025-01-01")) :=
  claim5_description_append _ _ _ (Or.inr ⟨_, rfl, Or.inr rfl⟩)

/-- Shared characterization: whenever the parsed document's `paths` and
`info` values (when present) are mappings, the in-memory pipeline
succeeds, and it only shrinks `paths` by the removal list and only
touches `info.description` — everything else keeps its original value. -/
theorem processDoc_ok_frame (doc : Entries) (date : String)
    (hp : lookupKey doc "paths" = none ∨ ∃ pv, lookupKey doc "paths" = some (.map pv))
    (hi : lookupKey doc "info" = none ∨ ∃ im, lookupKey doc "info" = some (.map im)) :
    ∃ d n, processDoc doc unused_endpoints date = .ok (d, n) ∧
      (∀ k, k ≠ "paths" → k ≠ "info" → lookupKey d k = lookupKey doc k) ∧
      (∀ pv pv', lookupKey doc "paths" = some (.map pv) →
        lookupKey d "paths" = some (.map pv') →
        ∀ k, k ∉ unused_endpoints → lookupKey pv' k = lookupKey pv k) ∧
      (∀ im im', lookupKey doc "info" = some (.map im) →
        lookupKey d "info" = some (.map im') →
        ∀ k, k ≠ "description" → lookupKey im' k = lookupKey im k) := by
  obtain ⟨d1, n1, hrs, hframe1, hpaths1⟩ :
      ∃ d1 n1, removeStep doc unused_endpoints = .ok (d1, n1) ∧
        (∀ k, k ≠ "paths" → lookupKey d1 k = lookupKey doc k) ∧
        (∀ pv pv', lookupKey doc "paths" = some (.map pv) →
          lookupKey d1 "paths" = some (.map pv') →
          ∀ k, k ∉ unused_endpoints → lookupKey pv' k = lookupKey pv k) := by
    rcases hp with hnone | ⟨pv, hpv⟩
    · refine ⟨doc, 0, removeStep_skip doc unused_endpoints hnone,
        fun k _ => rfl, fun pv pv' h1 h2 k hk => ?_⟩
      rw [hnone] at h1
      exact Option.noConfusion h1
    · refine ⟨setKey doc "paths" (.map (applyRemovals pv unused_endpoints)), _,
        removeStep_char doc pv _ hpv, ?_, ?_⟩
      · intro k hk
        exact lookupKey_setKey_other doc "paths" k _ hk
      · intro pv0 pv' h1 h2 k hk
        rw [hpv] at h1
        simp only [Option.some.injEq, YVal.map.injEq] at h1
        rw [lookupKey_setKey_self] at h2
        simp only [Option.some.injEq, YVal.map.injEq] at h2
        subst h1
        rw [← h2, applyRemovals_eq_filter]
        exact lookupKey_filterKeys pv (fun x => decide (x ∉ unused_endpoints)) k
          (by simp [hk])
  have hinfo1 : lookupKey d1 "info" = lookupKey doc "info" := hframe1 "info" (by decide)
  rcases hi with hnone | ⟨im, him⟩
  · have hni : lookupKey d1 "info" = none := by rw [hinfo1, hnone]
    refine ⟨setKey d1 "info" (.map [("description", .str ("" ++ noteText date))]), n1,
      ?_, ?_, ?_, ?_⟩
    · simp only [processDoc, hrs, annotateStep_absent d1 date hni]
    · intro k hkp hki
      rw [lookupKey_setKey_other d1 "info" k _ hki, hframe1 k hkp]
    · intro pv pv' h1 h2
      rw [lookupKey_setKey_other d1 "info" "paths" _ (by decide)] at h2
      exact hpaths1 pv pv' h1 h2
    · intro im0 im' h1 h2
      rw [hnone] at h1
      exact Option.noConfusion h1
  · have hsi : lookupKey d1 "info" = some (.map im) := by rw [hinfo1, him]
    refine ⟨setKey d1 "info" (.map (setKey im "description"
      (.str (pyStr ((lookupKey im "description").getD (.str "")) ++ noteText date)))), n1,
      ?_, ?_, ?_, ?_⟩
    · simp only [processDoc, hrs, annotateStep_present d1 im date hsi]
    · intro k hkp hki
      rw [lookupKey_setKey_other d1 "info" k _ hki, hframe1 k hkp]
    · intro pv pv' h1 h2
      rw [lookupKey_setKey_other d1 "info" "paths" _ (by decide)] at h2
      exact hpaths1 pv pv' h1 h2
    · intro im0 im' h1 h2
      rw [him] at h1
      simp only [Option.some.injEq, YVal.map.injEq] at h1
      rw [lookupKey_setKey_self] at h2
      simp only [Option.some.injEq, YVal.map.injEq] at h2
      subst h1
      intro k hk
      rw [← h2]
      exact lookupKey_setKey_other im "description" k _ hk

/-- Claim C9 (frame): the in-memory mutation touches only the `paths`
mapping and `info.description`: all other top-level keys, all untargeted
`paths` payloads and all other `info` keys keep their original values. -/
theorem claim9_frame (doc : Entries) (date : String)
    (hp : lookupKey doc "paths" = none ∨ ∃ pv, lookupKey doc "paths" = some (.map pv))
    (hi : lookupKey doc "info" = none ∨ ∃ im, lookupKey doc "info" = some (.map im)) :
    ∃ d n, processDoc doc unused_endpoints date = .ok (d, n) ∧
      (∀ k, k ≠ "paths" → k ≠ "info" → lookupKey d k = lookupKey doc k) ∧
      (∀ pv pv', lookupKey doc "paths" = some (.map pv) →
        lookupKey d "paths" = some (.map pv') →
        ∀ k, k ∉ unused_endpoints → lookupKey pv' k = lookupKey pv k) ∧
      (∀ im im', lookupKey doc "info" = some (.map im) →
        lookupKey d "info" = some (.map im') →
        ∀ k, k ≠ "description" → lookupKey im' k = lookupKey im k) :=
  processDoc_ok_frame doc date hp hi

/-- Concrete instance of C9. -/
theorem claim9_frame_witness :
    ∃ d n, processDoc
        [("openapi", YVal.str "3.0.0"),
         ("info", YVal.map [("title", YVal.str "API"), ("description", YVal.str "Base")]),
         ("paths", YVal.map [("/a", YVal.null), ("/journal-entries/summary", YVal.null)])]
        unused_endpoints "2025-01-01" = .ok (d, n) ∧
      (∀ k, k ≠ "paths" → k ≠ "info" →
        lookupKey d k = lookupKey
          [("openapi", YVal.str "3.0.0"),
           ("info", YVal.map [("title", YVal.str "API"), ("description", YVal.str "Base")]),
           ("paths", YVal.map [("/a", YVal.null), ("/journal-entries/summary", YVal.null)])] k) ∧
      (∀ pv pv', lookupKey
          [("openapi", YVal.str "3.0.0"),
           ("info", YVal.map [("title", YVal.str "API"), ("description", YVal.str "Base")]),
           ("paths", YVal.map [("/a", YVal.null), ("/journal-entries/summary", YVal.null)])]
          "paths" = some (.map pv) →
        lookupKey d "paths" = some (.map pv') →
        ∀ k, k ∉ unused_endpoints → lookupKey pv' k = lookupKey pv k) ∧
      (∀ im im', lookupKey
          [("openapi", YVal.str "3.0.0"),
           ("info", YVal.map [("title", YVal.str "API"), ("description", YVal.str "Base")]),
           ("paths", YVal.map [("/a", YVal.null), ("/journal-entries/summary", YVal.null)])]
          "info" = some (.map im) →
        lookupKey d "info" = some (.map im') →
        ∀ k, k ≠ "description" → lookupKey im' k = lookupKey im k) :=
  claim9_frame _ "2025-01-01" (Or.inr ⟨_, rfl⟩) (Or.inr ⟨_, rfl⟩)

/-- Claim C4 is false as stated: a parsed document whose `paths` key
holds `None` (YAML `paths:` with an empty body) makes the removal step
raise a `TypeError` at the `len(swagger_data['paths'])` call — the
remover can fail on a parsed document. -/
theorem claim4_counterexample :
    processDoc [("paths", YVal.null)] unused_endpoints "2025-01-01" =
      .error .typeError := rfl

/-- Claim C4 as amended: for every parsed document whose `paths` value
(when present) is a mapping and whose `info` value (when present) is a
mapping, the removal and annotation steps complete without error. -/
theorem claim4_no_fail_amended (doc : Entries) (date : String)
    (hp : lookupKey doc "paths" = none ∨ ∃ pv, lookupKey doc "paths" = some (.map pv))
    (hi : lookupKey doc "info" = none ∨ ∃ im, lookupKey doc "info" = some (.map im)) :
    ∃ d n, processDoc doc unused_endpoints date = .ok (d, n) := by
  obtain ⟨d, n, h, -, -, -⟩ := processDoc_ok_frame doc date hp hi
  exact ⟨d, n, h⟩

/-- Concrete instance of the amended C4. -/
theorem claim4_no_fail_amended_witness :
    ∃ d n, processDoc
        [("paths", YVal.map [("/a", YVal.null)]), ("info", YVal.map [])]
        unused_endpoints "2025-01-01" = .ok (d, n) :=
  claim4_no_fail_amended _ "2025-01-01" (Or.inr ⟨_, rfl⟩) (Or.inr ⟨_, rfl⟩)

/-! ### Claims about the backup-restore guard and the report -/

/-- Claim C2: if any exception is raised after the backup copy (parsing,
removal, annotation, serialization, or later), the source file ends up
restored from the backup to its exact pre-run content and the exception
propagates; no partially mutated source file remains. -/
theorem claim2_restore_on_failure (date ts bname : String) (o : Outcomes) (fs : FS) :
    (∀ e, o.parsed = .error e →
      (remove_unused_endpoints date ts bname o fs).2 = .error e ∧
      (remove_unused_endpoints date ts bname o fs).1.swagger = fs.swagger ∧
      (remove_unused_endpoints date ts bname o fs).1.backup = some fs.swagger) ∧
    (∀ doc e, o.parsed = .ok doc →
      processDoc doc unused_endpoints date = .error e →
      (remove_unused_endpoints date ts bname o fs).2 = .error e ∧
      (remove_unused_endpoints date ts bname o fs).1.swagger = fs.swagger ∧
      (remove_unused_endpoints date ts bname o fs).1.backup = some fs.swagger) ∧
    (∀ doc d2 n e, o.parsed = .ok doc →
      processDoc doc unused_endpoints date = .ok (d2, n) →
      o.dump d2 = .error e →
      (remove_unused_endpoints date ts bname o fs).2 = .error e ∧
      (remove_unused_endpoints date ts bname o fs).1.swagger = fs.swagger ∧
      (remove_unused_endpoints date ts bname o fs).1.backup = some fs.swagger) := by
  refine ⟨?_, ?_, ?_⟩
  · intro e hpar
    unfold remove_unused_endpoints
    simp [hpar, restoreGuard]
  · intro doc e hpar hproc
    unfold remove_unused_endpoints
    simp [hpar, hproc, restoreGuard]
  · intro doc d2 n e hpar hproc hdump
    unfold remove_unused_endpoints
    simp [hpar, hproc, hdump, restoreGuard]

/-- Concrete instances of C2: a parse failure, an in-memory `TypeError`,
and a serialization failure each leave the source at its pre-run content
and re-raise. -/
theorem claim2_restore_on_failure_witness :
    ((remove_unused_endpoints "2025-01-01" "t" "b"
      { parsed := .error .valueError, dump := fun _ => .ok "", brokenSwagger := "X",
        reportErr := none, brokenReport := none }
      { swagger := "orig", backup := none, report := none }).2 = .error .valueError ∧
     (remove_unused_endpoints "2025-01-01" "t" "b"
      { parsed := .error .valueError, dump := fun _ => .ok "", brokenSwagger := "X",
        reportErr := none, brokenReport := none }
      { swagger := "orig", backup := none, report := none }).1.swagger = "orig" ∧
     (remove_unused_endpoints "2025-01-01" "t" "b"
      { parsed := .error .valueError, dump := fun _ => .ok "", brokenSwagger := "X",
        reportErr := none, brokenReport := none }
      { swagger := "orig", backup := none, report := none }).1.backup = some "orig") ∧
    ((remove_unused_endpoints "2025-01-01" "t" "b"
      { parsed := .ok [("paths", YVal.int 7)], dump := fun _ => .ok "", brokenSwagger := "X",
        reportErr := none, brokenReport := none }
      { swagger := "orig", backup := none, report := none }).2 = .error .typeError ∧
     (remove_unused_endpoints "2025-01-01" "t" "b"
      { parsed := .ok [("paths", YVal.int 7)], dump := fun _ => .ok "", brokenSwagger := "X",
        reportErr := none, brokenReport := none }
      { swagger := "orig", backup := none, report := none }).1.swagger = "orig" ∧
     (remove_unused_endpoints "2025-01-01" "t" "b"
      { parsed := .ok [("paths", YVal.int 7)], dump := fun _ => .ok "", brokenSwagger := "X",
        reportErr := none, brokenReport := none }
      { swagger := "orig", backup := none, report := none }).1.backup = some "orig") ∧
    ((remove_unused_endpoints "2025-01-01" "t" "b"
      { parsed := .ok [], dump := fun _ => .error .ioError, brokenSwagger := "HALF",
        reportErr := none, brokenReport := none }
      { swagger := "orig", backup := none, report := none }).2 = .error .ioError ∧
     (remove_unused_endpoints "2025-01-01" "t" "b"
      { parsed := .ok [], dump := fun _ => .error .ioError, brokenSwagger := "HALF",
        reportErr := none, brokenReport := none }
      { swagger := "orig", backup := none, report := none }).1.swagger = "orig" ∧
     (remove_unused_endpoints "2025-01-01" "t" "b"
      { parsed := .ok [], dump := fun _ => .error .ioError, brokenSwagger := "HALF",
        reportErr := none, brokenReport := none }
      { swagger := "orig", backup := none, report := none }).1.backup = some "orig") :=
  ⟨(claim2_restore_on_failure "2025-01-01" "t" "b"
      { parsed := .error .valueError, dump := fun _ => .ok "", brokenSwagger := "X",
        reportErr := none, brokenReport := none }
      { swagger := "orig", backup := none, report := none }).1 .valueError rfl,
   (claim2_restore_on_failure "2025-01-01" "t" "b"
      { parsed := .ok [("paths", YVal.int 7)], dump := fun _ => .ok "", brokenSwagger := "X",
        reportErr := none, brokenReport := none }
      { swagger := "orig", backup := none, report := none }).2.1
      [("paths", YVal.int 7)] .typeError rfl rfl,
   (claim2_restore_on_failure "2025-01-01" "t" "b"
      { parsed := .ok [], dump := fun _ => .error .ioError, brokenSwagger := "HALF",
        reportErr := none, brokenReport := none }
      { swagger := "orig", backup := none, report := none }).2.2 []
      [("info", YVal.map [("description", YVal.str ("" ++ noteText "2025-01-01"))])]
      0 .ioError rfl rfl rfl⟩

/-- On a successful run, the report file holds exactly the template
instantiated with the removed count, backup path and timestamp. -/
theorem run_report_of_ok (date ts bname : String) (o : Outcomes) (fs : FS) (n : Nat)
    (h : (remove_unused_endpoints date ts bname o fs).2 = .ok n) :
    (remove_unused_endpoints date ts bname o fs).1.report =
      some (generate_cleanup_report unused_endpoints n bname ts) := by
  unfold remove_unused_endpoints at h ⊢
  cases hpar : o.parsed with
  | error e1 => simp [hpar, restoreGuard] at h
  | ok doc =>
    cases hproc : processDoc doc unused_endpoints date with
    | error e1 => simp [hpar, hproc, restoreGuard] at h
    | ok p =>
      obtain ⟨d2, removed⟩ := p
      cases hdump : o.dump d2 with
      | error e1 => simp [hpar, hproc, hdump, restoreGuard] at h
      | ok out =>
        cases hrep : o.reportErr with
        | some e1 => simp [hpar, hproc, hdump, hrep, restoreGuard] at h
        | none =>
          obtain rfl : removed = n := by simpa [hpar, hproc, hdump, hrep] using h
          simp [hpar, hproc, hdump, hrep]

/-- Claim C6: the report content is independent of the input document
and of which endpoints were found and removed — any two successful runs
with the same removed count, report timestamp and backup path produce
identical report content (the full targeted set is listed by a static
template; only the count comes from the outcome). -/
theorem claim6_report_uniform (date1 date2 ts bname : String) (o1 o2 : Outcomes)
    (fs1 fs2 : FS) (n : Nat)
    (h1 : (remove_unused_endpoints date1 ts bname o1 fs1).2 = .ok n)
    (h2 : (remove_unused_endpoints date2 ts bname o2 fs2).2 = .ok n) :
    (remove_unused_endpoints date1 ts bname o1 fs1).1.report =
    (remove_unused_endpoints date2 ts bname o2 fs2).1.report := by
  rw [run_report_of_ok date1 ts bname o1 fs1 n h1,
    run_report_of_ok date2 ts bname o2 fs2 n h2]

/-- Concrete instance of C6: two runs on different documents and
different source texts, both removing nothing, write identical reports. -/
theorem claim6_report_uniform_witness :
    (remove_unused_endpoints "2025-01-01" "t" "b"
      { parsed := .ok [], dump := fun _ => .ok "Y1", brokenSwagger := "",
        reportErr := none, brokenReport := none }
      { swagger := "s1", backup := none, report := none }).1.report =
    (remove_unused_endpoints "2025-01-02" "t" "b"
      { parsed := .ok [("x", YVal.null)], dump := fun _ => .ok "Y2", brokenSwagger := "",
        reportErr := none, brokenReport := none }
      { swagger := "s2", backup := none, report := none }).1.report :=
  claim6_report_uniform "2025-01-01" "2025-01-02" "t" "b"
    { parsed := .ok [], dump := fun _ => .ok "Y1", brokenSwagger := "",
      reportErr := none, brokenReport := none }
    { parsed := .ok [("x", YVal.null)], dump := fun _ => .ok "Y2", brokenSwagger := "",
      reportErr := none, brokenReport := none }
    { swagger := "s1", backup := none, report := none }
    { swagger := "s2", backup := none, report := none } 0 rfl rfl

/-- Claim C10: report generation runs inside the backup-restore guard —
when the report write fails after the source was already successfully
rewritten, the handler copies the backup over the source, reverting the
completed cleanup, and the exception is re-raised. -/
theorem claim10_report_failure_reverts (date ts bname : String) (o : Outcomes) (fs : FS)
    (doc d2 : Entries) (n : Nat) (out : String) (e : PyErr)
    (hpar : o.parsed = .ok doc)
    (hproc : processDoc doc unused_endpoints date = .ok (d2, n))
    (hdump : o.dump d2 = .ok out)
    (hrep : o.reportErr = some e) :
    (remove_unused_endpoints date ts bname o fs).2 = .error e ∧
    (remove_unused_endpoints date ts bname o fs).1.swagger = fs.swagger := by
  unfold remove_unused_endpoints
  simp [hpar, hproc, hdump, hrep, restoreGuard]

/-- Concrete instance of C10: everything up to the rewrite succeeds, the
report write fails, and the source reverts to its pre-run content. -/
theorem claim10_report_failure_reverts_witness :
    (remove_unused_endpoints "2025-01-01" "t" "b"
      { parsed := .ok [], dump := fun _ => .ok "NEW", brokenSwagger := "",
        reportErr := some .ioError, brokenReport := some "PARTIAL" }
      { swagger := "orig", backup := none, report := none }).2 = .error .ioError ∧
    (remove_unused_endpoints "2025-01-01" "t" "b"
      { parsed := .ok [], dump := fun _ => .ok "NEW", brokenSwagger := "",
        reportErr := some .ioError, brokenReport := some "PARTIAL" }
      { swagger := "orig", backup := none, report := none }).1.swagger = "orig" :=
  claim10_report_failure_reverts "2025-01-01" "t" "b"
    { parsed := .ok [], dump := fun _ => .ok "NEW", brokenSwagger := "",
      reportErr := some .ioError, brokenReport := some "PARTIAL" }
    { swagger := "orig", backup := none, report := none } []
    [("info", YVal.map [("description", YVal.str ("" ++ noteText "2025-01-01"))])]
    0 "NEW" .ioError rfl rfl rfl rfl

end SwaggerCleanup
